import Mathlib

/-!
Verification development for the msimg repository (xiaoqiangclub/msimg).

The definitions below are a shallow embedding, translated from the Python
source under msimg/:
* msimg/strategies.py   — SelectionStrategy, NotificationMode
* msimg/callbacks.py    — ResourceSelector, NotificationManager, ImageUploadManager
* msimg/constants.py    — SIZE_PRESETS, MODEL_PRESETS
* msimg/generator.py    — _parse_models, generate_image (the failover
  orchestrator loop) and _generate_image_single (the task protocol
  driver with its three bounded-retry sub-loops).

Modelling conventions:
* Python sets of indices become Finset Nat; Python lists become List.
* random.choice over a non-empty list avail is modelled by
  avail[rand % avail.length] for an oracle argument rand : Nat supplied by
  the caller; quantifying over rand covers every possible draw.
* Network calls are oracles (functions from the retry counter to an
  outcome); an outcome is success, a requests.RequestException (tagged
  with whether it is a ConnectionError/Timeout, i.e. network-class), or
  any other exception.
* Wall-clock time in the polling loop is an oracle from the poll
  iteration to the elapsed seconds; the while-True polling loop gets an
  explicit fuel, and the driver returns some r when the source returns r
  (r : Option Image) and none when the modelling fuel runs out or the
  source would raise an uncaught exception (empty output_images on
  SUCCEED).  No claim below depends on those two escape branches.
* Python's \d character class (the interpreter's Unicode decimal
  digits, category Nd) is the oracle parameter isDig : Char → Bool;
  theorems quantify over it.
-/

/-- msimg/strategies.py: class SelectionStrategy(Enum). -/
inductive SelectionStrategy where
  | random
  | sequential
  | roundRobin
deriving DecidableEq

/-- msimg/strategies.py: class NotificationMode(Enum). -/
inductive NotificationMode where
  | success
  | error
  | all
  | none
deriving DecidableEq

/-- msimg/callbacks.py: class ResourceSelector.  strategy is fixed at
construction; round_robin_index starts at 0. -/
structure ResourceSelector where
  strategy : SelectionStrategy
  round_robin_index : Nat
deriving DecidableEq

/-- callbacks.py line 50: available_indices =
[i for i in range(len(resources)) if i not in used_indices]. -/
def availableIndices (n : Nat) (used : Finset Nat) : List Nat :=
  (List.range n).filter (fun i => i ∉ used)

/-- callbacks.py lines 64-71: the ROUND_ROBIN scan.  fuel is
len(resources); the cursor is advanced mod n at each step; on a hit the
result index and the advanced cursor are returned, otherwise the final
cursor is returned so the fallback keeps the mutated cursor. -/
def rrScan (n : Nat) (avail : List Nat) : Nat → Nat → Option Nat × Nat
  | 0, c => (none, c)
  | fuel + 1, c =>
    if c ∈ avail then (some c, (c + 1) % n)
    else rrScan n avail fuel ((c + 1) % n)

/-- callbacks.py lines 35-77, ResourceSelector.select reduced to index
level.  The source's `if not resources` guard and the
`if not available_indices` guard both land in the `avail = []` branch
(range 0 is empty).  rand is the random.choice oracle; the defensive
`else` arm of the source is unreachable for the three enum members. -/
def selectIdx (sel : ResourceSelector) (n : Nat) (used : Finset Nat) (rand : Nat) :
    Option Nat × ResourceSelector :=
  let avail := availableIndices n used
  if avail = [] then (none, sel)
  else
    match sel.strategy with
    | SelectionStrategy.random => (some (avail.getD (rand % avail.length) 0), sel)
    | SelectionStrategy.sequential => (some (avail.getD 0 0), sel)
    | SelectionStrategy.roundRobin =>
      match rrScan n avail n sel.round_robin_index with
      | (some i, c) => (some i, ⟨sel.strategy, c⟩)
      | (none, c) => (some (avail.getD 0 0), ⟨sel.strategy, c⟩)

/-- callbacks.py ResourceSelector.select: the value/index pair the source
returns, (resources[index], index) on success and (None, -1) otherwise,
together with the (possibly cursor-advanced) selector. -/
def ResourceSelector.select (sel : ResourceSelector) (resources : List α)
    (used : Finset Nat) (rand : Nat) : (Option α × Int) × ResourceSelector :=
  match selectIdx sel resources.length used rand with
  | (some i, sel') => ((resources[i]?, (i : Int)), sel')
  | (none, sel') => ((none, -1), sel')

/-- Outcome of one underlying network call.  requestError models
requests.exceptions.RequestException, with isNetwork recording whether it
is a ConnectionError or Timeout (generator.py lines 453, 496); otherError
models any other exception. -/
inductive CallOutcome (α : Type) where
  | success (v : α)
  | requestError (isNetwork : Bool)
  | otherError

/-- generator.py lines 424-465 (submit) and 483-508 (poll status-check):
the bounded-retry sub-loop `for retry in range(max_retries + 1)`.  The two
source blocks are textually identical in their control flow, so one
function models both.  call is the network-call oracle indexed by the
retry counter.  Returns the result together with the number of
underlying call attempts made. -/
def retryLoopGo (maxRetries : Nat) (rone : Bool) (call : Nat → CallOutcome α) :
    Nat → Nat → Option α × Nat
  | 0, retry => (none, retry)
  | fuel + 1, retry =>
    match call retry with
    | CallOutcome.success v => (some v, retry + 1)
    | CallOutcome.requestError isNet =>
      if retry < maxRetries ∧ (rone = true ∨ isNet = false) then
        retryLoopGo maxRetries rone call fuel (retry + 1)
      else (none, retry + 1)
    | CallOutcome.otherError => (none, retry + 1)

/-- The submit / poll status-check retry sub-loop, started at retry 0 with
fuel max_retries + 1 (the length of range(max_retries + 1)). -/
def retryLoop (maxRetries : Nat) (rone : Bool) (call : Nat → CallOutcome α) :
    Option α × Nat :=
  retryLoopGo maxRetries rone call (maxRetries + 1) 0

/-- generator.py lines 529-555: the download retry loop.  Unlike the
submit and status-check loops it has a single `except Exception` handler,
so a RequestException and any other exception are treated alike and
retry_on_network_error is never consulted: it retries on every failure
while retry < max_retries. -/
def downloadRetryGo (maxRetries : Nat) (call : Nat → CallOutcome α) :
    Nat → Nat → Option α × Nat
  | 0, retry => (none, retry)
  | fuel + 1, retry =>
    match call retry with
    | CallOutcome.success v => (some v, retry + 1)
    | _ =>
      if retry < maxRetries then downloadRetryGo maxRetries call fuel (retry + 1)
      else (none, retry + 1)

/-- The download retry loop started at retry 0 with fuel max_retries + 1. -/
def downloadRetry (maxRetries : Nat) (call : Nat → CallOutcome α) :
    Option α × Nat :=
  downloadRetryGo maxRetries call (maxRetries + 1) 0

/-- The JSON body of GET {base}v1/tasks/{task_id} as read by the driver:
data["task_status"] and data["output_images"]. -/
structure PollData where
  task_status : String
  output_images : List String

/-- The network-call oracles of one driver attempt
(_generate_image_single): submit and download are indexed by their retry
counter, status by the poll iteration and then the retry counter, and
elapsed gives time.time() - start_time (in whole seconds) as observed at
each poll iteration. -/
structure DriverCalls (Img : Type) where
  submit : Nat → CallOutcome String
  status : Nat → Nat → CallOutcome PollData
  download : Nat → CallOutcome Img
  elapsed : Nat → Nat

/-- generator.py lines 475-571: the `while True` polling loop.  Outer
some r means the source returns r (r = none is Python returning None);
outer none covers the two escape branches described in the header comment
(fuel exhaustion, empty output_images on SUCCEED). -/
def pollLoopGo (env : DriverCalls Img) (maxRetries : Nat) (rone : Bool)
    (pollTimeout : Nat) : Nat → Nat → Option (Option Img)
  | 0, _ => none
  | fuel + 1, iter =>
    if pollTimeout < env.elapsed iter then some none
    else
      match (retryLoop maxRetries rone (env.status iter)).1 with
      | none => some none
      | some data =>
        if data.task_status = "SUCCEED" then
          match data.output_images with
          | [] => none
          | _ :: _ => some (downloadRetry maxRetries env.download).1
        else if data.task_status = "FAILED" ∨ data.task_status = "CANCELED" ∨
            data.task_status = "TIMEOUT" then
          some none
        else pollLoopGo env maxRetries rone pollTimeout fuel (iter + 1)

/-- generator.py _generate_image_single: submit with the retry sub-loop;
if no task id was obtained return None, otherwise run the polling loop.
pollFuel is the modelling fuel for the while-True loop. -/
def generateImageSingle (env : DriverCalls Img) (maxRetries : Nat) (rone : Bool)
    (pollTimeout : Nat) (pollFuel : Nat) : Option (Option Img) :=
  match (retryLoop maxRetries rone env.submit).1 with
  | none => some none
  | some _ => pollLoopGo env maxRetries rone pollTimeout pollFuel 0

/-- generator.py lines 375-384: the failure branch under enable_failover.
used_model_indices.add(model_index); if its size reaches len(models_list)
then used_api_indices.add(api_index) and used_model_indices.clear(). -/
def failoverUpdate (M : Nat) (usedApi usedModel : Finset Nat)
    (apiIndex modelIndex : Nat) : Finset Nat × Finset Nat :=
  let um := insert modelIndex usedModel
  if M ≤ um.card then (insert apiIndex usedApi, (∅ : Finset Nat))
  else (usedApi, um)

/-- The mutable state of the generate_image main loop: the two exclusion
sets (both empty at call start) and the two selector instances (created
fresh at lines 260-261, cursor 0). -/
structure OrchSt where
  usedApi : Finset Nat
  usedModel : Finset Nat
  apiSel : ResourceSelector
  modelSel : ResourceSelector

/-- Output of the orchestrator loop: the successful result (image with
the api and model indices used), the number of driver
(_generate_image_single) invocations, and the trace of
(used_api_indices, used_model_indices) as they stood at the start of
each loop iteration that was entered. -/
structure RunOut (Img : Type) where
  result : Option (Img × Nat × Nat)
  calls : Nat
  trace : List (Finset Nat × Finset Nat)

/-- generator.py lines 279-387: the main loop `for attempt in
range(max_attempts)`.  Both selectors are consulted every iteration (with
their exclusion set under failover, with an empty set otherwise); if
either returns none the loop breaks; otherwise the driver (abstracted to
the oracle driver : attempt → apiIndex → modelIndex → Option Img) runs;
on success the loop returns, on failure the exclusion sets are updated
under failover or the loop breaks without it.  randA / randM are the
random.choice oracle streams for the two selectors, indexed by attempt. -/
def orchRun (N M : Nat) (ef : Bool) (driver : Nat → Nat → Nat → Option Img)
    (randA randM : Nat → Nat) : Nat → Nat → OrchSt → RunOut Img
  | 0, _, _ => ⟨none, 0, []⟩
  | fuel + 1, attempt, st =>
    match selectIdx st.apiSel N (if ef then st.usedApi else ∅) (randA attempt),
        selectIdx st.modelSel M (if ef then st.usedModel else ∅) (randM attempt) with
    | (some a, apiSel'), (some m, modelSel') =>
      (match driver attempt a m with
       | some img => ⟨some (img, a, m), 1, [(st.usedApi, st.usedModel)]⟩
       | none =>
         if ef then
           let upd := failoverUpdate M st.usedApi st.usedModel a m
           let out := orchRun N M ef driver randA randM fuel (attempt + 1)
             ⟨upd.1, upd.2, apiSel', modelSel'⟩
           ⟨out.result, out.calls + 1, (st.usedApi, st.usedModel) :: out.trace⟩
         else ⟨none, 1, [(st.usedApi, st.usedModel)]⟩)
    | _, _ => ⟨none, 0, [(st.usedApi, st.usedModel)]⟩

/-- msimg/exceptions.py ValidationError, as raised by generate_image for
a malformed size argument (generator.py line 257). -/
inductive ValidationError where
  | unsupportedSize (size : String)
deriving DecidableEq

/-- msimg/constants.py SIZE_PRESETS. -/
def SIZE_PRESETS : List (String × String) :=
  [("1:1", "1328x1328"), ("16:9", "1664x928"), ("9:16", "928x1664"),
   ("4:3", "1472x1140"), ("3:4", "1140x1472"), ("3:2", "1584x1056"),
   ("2:3", "1056x1584")]

/-- Python's \d over str matches any Unicode decimal digit — category
Nd: ASCII 0-9, fullwidth digits, Arabic-Indic digits and so on.  The
exact class is a property of the interpreter's Unicode tables, so it is
abstracted as the oracle parameter isDig, in the same way the random
draws and the clock are oracles; every theorem below quantifies over
isDig and therefore holds for the runtime's actual digit class.
matchDigitsStar consumes \d characters from the front of a character
list and returns the remainder. -/
def matchDigitsStar (isDig : Char → Bool) : List Char → List Char
  | [] => []
  | c :: cs => if isDig c then matchDigitsStar isDig cs else c :: cs

/-- One-or-more \d characters: fails on empty input or a non-digit
head, otherwise consumes the maximal digit run and returns the rest. -/
def matchDigits1 (isDig : Char → Bool) : List Char → Option (List Char)
  | [] => none
  | c :: cs => if isDig c then some (matchDigitsStar isDig cs) else none

/-- generator.py line 248: re.match(r'^\d+x\d+$', size), with \d the
digit class isDig.  Python's $ also matches just before a single
trailing newline, so "123x456\n" is accepted; that Python semantics is
preserved. -/
def sizeRegexMatch (isDig : Char → Bool) (s : String) : Bool :=
  match matchDigits1 isDig s.data with
  | none => false
  | some rest =>
    match rest with
    | 'x' :: rest2 =>
      match matchDigits1 isDig rest2 with
      | none => false
      | some rest3 => rest3 = [] ∨ rest3 = ['\n']
    | _ => false

/-- generator.py lines 244-257: size preprocessing.  A preset key maps to
its pixel string, a regex match passes through unchanged, anything else
is the ValidationError path (modelled as none here). -/
def parseSize (isDig : Char → Bool) (size : String) : Option String :=
  match SIZE_PRESETS.lookup size with
  | some s => some s
  | none => if sizeRegexMatch isDig size then some size else none

/-- generator.py generate_image, reduced to the parts the claims are
about: the size check (which alone can raise ValidationError), then the
main loop with max_attempts = N * M under failover and 1 otherwise, with
the driver abstracted to an oracle.  Returns the Python return value
(Except.error is a raised exception, Except.ok none is `return None`)
paired with the number of driver invocations (each such invocation is
the first point at which any network call can happen).  isDig is the
interpreter's \d class. -/
def generate_image (isDig : Char → Bool) (size : String) (N M : Nat)
    (apiStrat modelStrat : SelectionStrategy) (enable_failover : Bool)
    (driver : Nat → Nat → Nat → Option Img) (randA randM : Nat → Nat) :
    Except ValidationError (Option (Img × Nat × Nat)) × Nat :=
  match parseSize isDig size with
  | none => (Except.error (ValidationError.unsupportedSize size), 0)
  | some _ =>
    let maxAttempts := if enable_failover then N * M else 1
    let out := orchRun N M enable_failover driver randA randM maxAttempts 0
      ⟨∅, ∅, ⟨apiStrat, 0⟩, ⟨modelStrat, 0⟩⟩
    (Except.ok out.result, out.calls)

/-- msimg/constants.py MODEL_PRESETS. -/
def MODEL_PRESETS : List (String × String) :=
  [("qwen", "Qwen/Qwen-Image"), ("qwen-image", "Qwen/Qwen-Image"),
   ("flux-majic", "MAILAND/majicflus_v1"),
   ("flux-muse", "MusePublic/489_ckpt_FLUX_1"),
   ("flux-xiaohongshu", "yiwanji/FLUX_xiao_hong_shu_ji_zhi_zhen_shi_V2"),
   ("sdxl-muse", "MusePublic/42_ckpt_SD_XL")]

/-- generator.py lines 78-84: a preset name maps to MODEL_PRESETS[model],
any other string is used as the full id unchanged. -/
def resolveModel (m : String) : String :=
  (MODEL_PRESETS.lookup m).getD m

/-- generator.py _parse_models (lines 67-86): a single string becomes a
one-element list, then every entry is resolved through MODEL_PRESETS.
The source contains no raise statement and no membership check against
FULL_MODEL_IDS, so the function is total over strings. -/
def parse_models : String ⊕ List String → List String
  | Sum.inl s => [resolveModel s]
  | Sum.inr l => l.map resolveModel

/-- Result of invoking one upload callback: it either raises or returns a
value whose truthiness is tested by `if url:`; the empty string stands
for any falsy return (None or ""). -/
inductive UploadOutcome where
  | raisesExc
  | returns (url : String)
deriving DecidableEq

/-- callbacks.py ImageUploadManager._call_upload_callback (lines
253-280): any exception is caught and yields None; a falsy url yields
None; otherwise the url is returned. -/
def callUploadCallback : UploadOutcome → Option String
  | UploadOutcome.raisesExc => none
  | UploadOutcome.returns u => if u = "" then none else some u

/-- callbacks.py _upload_with_failover (lines 236-244): try each
callback in enumeration order, stop at the first truthy url.  Returns
the result and the list of invoked callback indices, in invocation
order; idx is the enumeration offset. -/
def uploadWithFailoverGo (idx : Nat) : List UploadOutcome → Option String × List Nat
  | [] => (none, [])
  | o :: rest =>
    match callUploadCallback o with
    | some u => (some u, [idx])
    | none =>
      let out := uploadWithFailoverGo (idx + 1) rest
      (out.1, idx :: out.2)

/-- _upload_with_failover started at index 0. -/
def uploadWithFailover (cbs : List UploadOutcome) : Option String × List Nat :=
  uploadWithFailoverGo 0 cbs

/-- callbacks.py ImageUploadManager.upload (lines 210-251): empty
callback list returns None; SEQUENTIAL dispatches to
_upload_with_failover; the other strategies select a single callback via
the manager's ResourceSelector (no exclusions) and invoke only it. -/
def uploadManagerUpload (strategy : SelectionStrategy) (sel : ResourceSelector)
    (rand : Nat) (cbs : List UploadOutcome) : Option String × List Nat :=
  if cbs = [] then (none, [])
  else
    match strategy with
    | SelectionStrategy.sequential => uploadWithFailover cbs
    | _ =>
      match selectIdx sel cbs.length ∅ rand with
      | (some i, _) => (callUploadCallback (cbs.getD i UploadOutcome.raisesExc), [i])
      | (none, _) => (none, [])

/-- callbacks.py NotificationManager.notify (lines 108-141), counting
Notifier invocations.  The mode filter runs first (NONE, then
SUCCESS/not-success, then ERROR/success, each returning with zero
invocations), then the empty-callback check, then the strategy dispatch:
SEQUENTIAL invokes every callback, RANDOM and ROUND_ROBIN invoke the one
selected callback.  n is the number of configured callbacks. -/
def notifyCount (mode : NotificationMode) (strategy : SelectionStrategy)
    (sel : ResourceSelector) (n : Nat) (isSuccess : Bool) (rand : Nat) : Nat :=
  if mode = NotificationMode.none then 0
  else if mode = NotificationMode.success ∧ isSuccess = false then 0
  else if mode = NotificationMode.error ∧ isSuccess = true then 0
  else if n = 0 then 0
  else
    match strategy with
    | SelectionStrategy.sequential => n
    | _ =>
      match selectIdx sel n ∅ rand with
      | (some _, _) => 1
      | (none, _) => 0

/-- The step relation claim C3 is about, between the exclusion-set pairs
(usedApi, usedModel) at consecutive entered iterations of the
generate_image main loop: the model set is cleared exactly when a
credential index is added, exactly when its size reached the model count
M after the failure, and otherwise the credential set is unchanged while
the model set grows by the failed model index. -/
def exclusionStep (M : Nat) (s t : Finset Nat × Finset Nat) : Prop :=
  (t.2 = ∅ ↔ ∃ a, a ∉ s.1 ∧ t.1 = insert a s.1) ∧
  (t.2 = ∅ ↔ M ≤ s.2.card + 1) ∧
  (t.2 ≠ ∅ → t.1 = s.1 ∧ ∃ m, m ∉ s.2 ∧ t.2 = insert m s.2)

/-- Trace of repeated ResourceSelector.select calls on the same items
with a constantly-empty exclusion set: each entry is the returned
(value, index) pair together with the cursor after that call.  The
roundRobin strategy ignores the rand oracle, fixed to 0 here. -/
def selectCallsTrace (sel : ResourceSelector) (items : List α) :
    Nat → List ((Option α × Int) × Nat)
  | 0 => []
  | k + 1 =>
    let r := ResourceSelector.select sel items ∅ 0
    (r.1, r.2.round_robin_index) :: selectCallsTrace r.2 items k

/-! ## Selector lemmas -/

theorem mem_availableIndices {n : Nat} {used : Finset Nat} {i : Nat} :
    i ∈ availableIndices n used ↔ i < n ∧ i ∉ used := by
  simp [availableIndices]

theorem availableIndices_eq_nil_iff {n : Nat} {used : Finset Nat} :
    availableIndices n used = [] ↔ ∀ i < n, i ∈ used := by
  rw [List.eq_nil_iff_forall_not_mem]
  constructor
  · intro h i hi
    by_contra hmem
    exact h i (mem_availableIndices.mpr ⟨hi, hmem⟩)
  · intro h i hmem
    rcases mem_availableIndices.mp hmem with ⟨h1, h2⟩
    exact h2 (h i h1)

theorem getD_mem_of_lt (l : List Nat) (i d : Nat) (h : i < l.length) :
    l.getD i d ∈ l := by
  rw [List.getD_eq_getElem l d h]
  exact List.getElem_mem h

theorem rrScan_some_mem {n : Nat} {avail : List Nat} :
    ∀ {fuel c i c'}, rrScan n avail fuel c = (some i, c') → i ∈ avail := by
  intro fuel
  induction fuel with
  | zero =>
    intro c i c' h
    simp [rrScan] at h
  | succ k ih =>
    intro c i c' h
    by_cases hc : c ∈ avail
    · simp [rrScan, hc] at h
      exact h.1 ▸ hc
    · simp [rrScan, hc] at h
      exact ih h

theorem selectIdx_of_nil (sel : ResourceSelector) (rand : Nat) {n : Nat}
    {used : Finset Nat} (h : availableIndices n used = []) :
    selectIdx sel n used rand = (none, sel) := by
  simp [selectIdx, h]

theorem selectIdx_some_exists (sel : ResourceSelector) (rand : Nat) {n : Nat}
    {used : Finset Nat} (h : availableIndices n used ≠ []) :
    ∃ i sel', selectIdx sel n used rand = (some i, sel') ∧
      i ∈ availableIndices n used := by
  have hlen : 0 < (availableIndices n used).length := List.length_pos.mpr h
  unfold selectIdx
  simp only [h, if_false]
  cases hs : sel.strategy with
  | random =>
    exact ⟨_, sel, rfl, getD_mem_of_lt _ _ _ (Nat.mod_lt _ hlen)⟩
  | sequential =>
    exact ⟨_, sel, rfl, getD_mem_of_lt _ _ _ hlen⟩
  | roundRobin =>
    rcases hscan : rrScan n (availableIndices n used) n sel.round_robin_index with ⟨o, c⟩
    cases o with
    | some j =>
      exact ⟨j, _, rfl, rrScan_some_mem hscan⟩
    | none =>
      exact ⟨_, _, rfl, getD_mem_of_lt _ _ _ hlen⟩

theorem selectIdx_some_spec {sel : ResourceSelector} {n : Nat} {used : Finset Nat}
    {rand i : Nat} {sel' : ResourceSelector}
    (h : selectIdx sel n used rand = (some i, sel')) : i < n ∧ i ∉ used := by
  by_cases hav : availableIndices n used = []
  · rw [selectIdx_of_nil sel rand hav] at h
    simp at h
  · rcases selectIdx_some_exists sel rand hav with ⟨j, selj, hj, hjmem⟩
    rw [hj] at h
    have : j = i := by simpa using congrArg (fun p => p.1) h
    exact mem_availableIndices.mp (this ▸ hjmem)

theorem select_coverage_iff (items : List α) (used : Finset Nat) :
    (items = [] ∨ ∀ i < items.length, i ∈ used) ↔
      availableIndices items.length used = [] := by
  rw [availableIndices_eq_nil_iff]
  constructor
  · rintro (rfl | h)
    · intro i hi
      simp at hi
    · exact h
  · intro h
    exact Or.inr h

/-- C5: for every items list, excluded set and strategy,
ResourceSelector.select returns (None, -1) exactly when items is empty or
excluded contains every index of items, and otherwise it returns
(items[i], i) for some index i of items with i not in excluded. -/
theorem resourceSelector_select_spec (α : Type) (sel : ResourceSelector)
    (items : List α) (used : Finset Nat) (rand : Nat) :
    ((ResourceSelector.select sel items used rand).1 = (none, -1) ↔
      (items = [] ∨ ∀ i < items.length, i ∈ used)) ∧
    (¬(items = [] ∨ ∀ i < items.length, i ∈ used) →
      ∃ i, i < items.length ∧ i ∉ used ∧
        (ResourceSelector.select sel items used rand).1 = (items[i]?, (i : Int))) := by
  by_cases hav : availableIndices items.length used = []
  · have hsel := selectIdx_of_nil sel rand hav
    constructor
    · rw [ResourceSelector.select, hsel]
      simpa using (select_coverage_iff items used).mpr hav
    · intro hne
      exact absurd ((select_coverage_iff items used).mpr hav) hne
  · rcases selectIdx_some_exists sel rand hav with ⟨i, sel', hsel, hmem⟩
    rcases mem_availableIndices.mp hmem with ⟨hlt, hnotin⟩
    constructor
    · rw [ResourceSelector.select, hsel]
      constructor
      · intro h
        have : (items[i]? : Option α) = none := by
          simpa using congrArg (fun p => p.1) h
        rw [List.getElem?_eq_none_iff] at this
        omega
      · intro h
        exact absurd ((select_coverage_iff items used).mp h) hav
    · intro _
      exact ⟨i, hlt, hnotin, by rw [ResourceSelector.select, hsel]⟩

/-- Witness for C5 at a concrete input: items = ["a","b"], excluded =
{0}, sequential strategy; the selection must land on an unexcluded
index. -/
theorem resourceSelector_select_spec_witness :
    ∃ i, i < (["a", "b"] : List String).length ∧ i ∉ ({0} : Finset Nat) ∧
      (ResourceSelector.select ⟨SelectionStrategy.sequential, 0⟩
        (["a", "b"] : List String) ({0} : Finset Nat) 0).1 =
        ((["a", "b"] : List String)[i]?, (i : Int)) := by
  refine (resourceSelector_select_spec String ⟨SelectionStrategy.sequential, 0⟩
    ["a", "b"] {0} 0).2 ?_
  rintro (h | h)
  · simp at h
  · have := h 1 (by decide)
    simp at this

/-! ## Round-robin sweep (C6) -/

theorem availableIndices_empty (n : Nat) : availableIndices n ∅ = List.range n := by
  unfold availableIndices
  rw [List.filter_eq_self]
  intro a _
  simp

theorem selectIdx_roundRobin_empty (n c rand : Nat) (hc : c < n) :
    selectIdx ⟨SelectionStrategy.roundRobin, c⟩ n ∅ rand =
      (some c, ⟨SelectionStrategy.roundRobin, (c + 1) % n⟩) := by
  have hav : availableIndices n ∅ = List.range n := availableIndices_empty n
  have hne : ¬availableIndices n ∅ = [] := by
    rw [hav]
    intro h
    rw [List.eq_nil_iff_forall_not_mem] at h
    exact h c (List.mem_range.mpr hc)
  obtain ⟨m, rfl⟩ : ∃ m, n = m + 1 := ⟨n - 1, by omega⟩
  unfold selectIdx
  simp only [hne, if_false, hav]
  rw [rrScan]
  simp [List.mem_range, hc]

theorem select_roundRobin_empty (items : List α) (c : Nat) (hc : c < items.length) :
    ResourceSelector.select ⟨SelectionStrategy.roundRobin, c⟩ items ∅ 0 =
      ((items[c]?, (c : Int)), ⟨SelectionStrategy.roundRobin, (c + 1) % items.length⟩) := by
  rw [ResourceSelector.select, selectIdx_roundRobin_empty items.length c 0 hc]

theorem selectCallsTrace_roundRobin (items : List α) :
    ∀ (k c : Nat), c + k ≤ items.length →
      selectCallsTrace ⟨SelectionStrategy.roundRobin, c⟩ items k =
        (List.range k).map (fun j =>
          ((items[c + j]?, ((c + j : Nat) : Int)), (c + j + 1) % items.length)) := by
  intro k
  induction k with
  | zero =>
    intro c _
    simp [selectCallsTrace]
  | succ k ih =>
    intro c h
    have hc : c < items.length := by omega
    rw [selectCallsTrace]
    simp only [select_roundRobin_empty items c hc]
    rw [List.range_succ_eq_map, List.map_cons, List.map_map]
    cases k with
    | zero =>
      simp [selectCallsTrace]
    | succ k' =>
      have hcursor : (c + 1) % items.length = c + 1 := Nat.mod_eq_of_lt (by omega)
      rw [hcursor, ih (c + 1) (by omega)]
      refine congrArg₂ List.cons ?_ ?_
      · simp [hcursor]
      · refine List.map_congr_left ?_
        intro j _
        have harith : c + 1 + j = c + (j + 1) := by omega
        simp [Function.comp, harith]

/-- C6: a fresh RoundRobin selector called len(items) times on the same
items with a constantly-empty exclusion set returns the indices
0, 1, ..., len-1 in order — every index exactly once before any repeat —
and after each call the cursor stands at (result_index + 1) mod len
(each trace entry pairs the returned (value, index) with the cursor
value after that call). -/
theorem roundRobin_full_sweep (α : Type) (items : List α) :
    selectCallsTrace ⟨SelectionStrategy.roundRobin, 0⟩ items items.length =
      (List.range items.length).map (fun (i : Nat) =>
        ((items[i]?, (i : Int)), (i + 1) % items.length)) := by
  have h := selectCallsTrace_roundRobin items items.length 0 (by omega)
  rw [h]
  refine List.map_congr_left ?_
  intro i _
  simp

/-! ## Upload fan-out (C7) -/

theorem uploadWithFailoverGo_spec (cbs : List UploadOutcome) :
    ∀ idx, (uploadWithFailoverGo idx cbs).1 = cbs.findSome? callUploadCallback ∧
      (uploadWithFailoverGo idx cbs).2 =
        (List.range (min (cbs.findIdx (fun o => (callUploadCallback o).isSome) + 1)
          cbs.length)).map (· + idx) := by
  induction cbs with
  | nil =>
    intro idx
    simp [uploadWithFailoverGo]
  | cons o rest ih =>
    intro idx
    rcases hco : callUploadCallback o with _ | u
    · have hp : (fun o => (callUploadCallback o).isSome) o = false := by
        simp [hco]
      constructor
      · simp only [uploadWithFailoverGo, hco, List.findSome?_cons]
        exact (ih (idx + 1)).1
      · simp only [uploadWithFailoverGo, hco, List.findIdx_cons, hp, cond_false,
          List.length_cons, Nat.succ_min_succ, List.range_succ_eq_map,
          List.map_cons, List.map_map]
        refine congrArg₂ List.cons (by omega) ?_
        rw [(ih (idx + 1)).2]
        refine List.map_congr_left ?_
        intro j _
        simp [Function.comp]
        omega
    · have hp : (fun o => (callUploadCallback o).isSome) o = true := by
        simp [hco]
      constructor
      · simp [uploadWithFailoverGo, hco, List.findSome?_cons]
      · have hmin : min (0 + 1) (rest.length + 1) = 1 := by omega
        have hr : List.range 1 = [0] := rfl
        simp [uploadWithFailoverGo, hco, List.findIdx_cons, hp, hmin, hr]

/-- C7: under the Sequential strategy ImageUploadManager.upload tries the
uploaders in list order, returns the first truthy URL, and the invoked
uploaders are exactly the indices 0 .. k where k is the position of the
first succeeding uploader (all of them when none succeeds, in which case
the result is None); an uploader exception is just a failed uploader
(callUploadCallback maps it to None) and never propagates.  Concretely,
with [A raises, B returns "u2", C returns "u3"] the result is "u2" and
the invoked list [0, 1] never includes C's index 2. -/
theorem uploadSequential_spec (sel : ResourceSelector) (rand : Nat)
    (cbs : List UploadOutcome) :
    uploadManagerUpload SelectionStrategy.sequential sel rand cbs =
      (cbs.findSome? callUploadCallback,
        List.range (min (cbs.findIdx (fun o => (callUploadCallback o).isSome) + 1)
          cbs.length)) ∧
    ((∀ o ∈ cbs, callUploadCallback o = none) →
      (uploadManagerUpload SelectionStrategy.sequential sel rand cbs).1 = none) ∧
    callUploadCallback UploadOutcome.raisesExc = none ∧
    uploadManagerUpload SelectionStrategy.sequential ⟨SelectionStrategy.sequential, 0⟩ 0
      [UploadOutcome.raisesExc, UploadOutcome.returns "u2",
        UploadOutcome.returns "u3"] = (some "u2", [0, 1]) ∧
    (2 : Nat) ∉ ([0, 1] : List Nat) := by
  have hmain : uploadManagerUpload SelectionStrategy.sequential sel rand cbs =
      (cbs.findSome? callUploadCallback,
        List.range (min (cbs.findIdx (fun o => (callUploadCallback o).isSome) + 1)
          cbs.length)) := by
    by_cases hnil : cbs = []
    · subst hnil
      simp [uploadManagerUpload]
    · have hspec := uploadWithFailoverGo_spec cbs 0
      rcases hgo : uploadWithFailoverGo 0 cbs with ⟨r, inv⟩
      rw [hgo] at hspec
      have h1 : r = cbs.findSome? callUploadCallback := hspec.1
      have h2 : inv = (List.range
          (min (cbs.findIdx (fun o => (callUploadCallback o).isSome) + 1)
            cbs.length)).map (· + 0) := hspec.2
      simp only [uploadManagerUpload, hnil, if_false]
      rw [uploadWithFailover, hgo]
      refine congrArg₂ Prod.mk h1 ?_
      rw [h2]
      simp
  have hall : (∀ o ∈ cbs, callUploadCallback o = none) →
      (uploadManagerUpload SelectionStrategy.sequential sel rand cbs).1 = none := by
    intro hall
    rw [hmain]
    exact List.findSome?_eq_none_iff.mpr hall
  have hconc : uploadManagerUpload SelectionStrategy.sequential
      ⟨SelectionStrategy.sequential, 0⟩ 0
      [UploadOutcome.raisesExc, UploadOutcome.returns "u2",
        UploadOutcome.returns "u3"] = (some "u2", [0, 1]) := by decide
  exact ⟨hmain, hall, rfl, hconc, by decide⟩

/-- Witness for C7 at a concrete input: a list where every uploader
fails yields result None. -/
theorem uploadSequential_spec_witness :
    (uploadManagerUpload SelectionStrategy.sequential
      ⟨SelectionStrategy.sequential, 0⟩ 0
      [UploadOutcome.raisesExc, UploadOutcome.returns ""]).1 = none := by
  refine (uploadSequential_spec ⟨SelectionStrategy.sequential, 0⟩ 0
    [UploadOutcome.raisesExc, UploadOutcome.returns ""]).2.1 ?_
  intro o ho
  fin_cases ho <;> rfl

/-! ## Notification mode filter (C8) -/

/-- C8: the notificationMode filter runs before any callback can fire:
mode = Error never notifies on a success event, mode = Success never
notifies on a failure event, and mode = None never notifies at all,
whatever the strategy, selector state, callback count and random draw. -/
theorem notification_mode_filter (strategy : SelectionStrategy)
    (sel : ResourceSelector) (n : Nat) (rand : Nat) :
    notifyCount NotificationMode.error strategy sel n true rand = 0 ∧
    notifyCount NotificationMode.success strategy sel n false rand = 0 ∧
    (∀ isSuccess : Bool,
      notifyCount NotificationMode.none strategy sel n isSuccess rand = 0) := by
  refine ⟨?_, ?_, fun isSuccess => ?_⟩ <;> simp [notifyCount]

/-! ## Model-argument parsing (C10) -/

/-- C10: _parse_models is total over strings and performs no validation:
a single string becomes a one-element list, a known preset key resolves
through MODEL_PRESETS, any unknown string is returned unchanged (so an
arbitrary model name is never a configuration error), and a list maps
elementwise, preserving length. -/
theorem parse_models_total (s : String) (l : List String) :
    parse_models (Sum.inl s) = [resolveModel s] ∧
    resolveModel s = (MODEL_PRESETS.lookup s).getD s ∧
    (MODEL_PRESETS.lookup s = none → parse_models (Sum.inl s) = [s]) ∧
    parse_models (Sum.inr l) = l.map resolveModel ∧
    (parse_models (Sum.inr l)).length = l.length ∧
    parse_models (Sum.inl "qwen") = ["Qwen/Qwen-Image"] := by
  refine ⟨rfl, rfl, ?_, rfl, by simp [parse_models], rfl⟩
  intro h
  simp [parse_models, resolveModel, h]

/-- Witness for C10 at a concrete input: an arbitrary unknown model
string passes through _parse_models unchanged. -/
theorem parse_models_total_witness :
    parse_models (Sum.inl "my-custom/model") = ["my-custom/model"] :=
  (parse_models_total "my-custom/model" []).2.2.1 rfl

/-! ## Retry sub-loops (C2, C4) -/

theorem retryLoop_network_no_retry (α : Type) (maxRetries : Nat)
    (call : Nat → CallOutcome α) (h : call 0 = CallOutcome.requestError true) :
    retryLoop maxRetries false call = (none, 1) := by
  rw [retryLoop, retryLoopGo, h]
  simp

theorem retryLoopGo_all_network (α : Type) (k : Nat) (call : Nat → CallOutcome α)
    (h : ∀ r, call r = CallOutcome.requestError true) :
    ∀ fuel retry, retry + fuel = k + 1 →
      retryLoopGo k true call fuel retry = (none, k + 1) := by
  intro fuel
  induction fuel with
  | zero =>
    intro retry hr
    have : retry = k + 1 := by omega
    subst this
    rfl
  | succ f ih =>
    intro retry hr
    by_cases hlt : retry < k
    · have hstep : retryLoopGo k true call (f + 1) retry =
          retryLoopGo k true call f (retry + 1) := by
        simp [retryLoopGo, h retry, hlt]
      rw [hstep]
      exact ih (retry + 1) (by omega)
    · have hres : retryLoopGo k true call (f + 1) retry = (none, retry + 1) := by
        simp [retryLoopGo, h retry, hlt]
      rw [hres]
      have : retry = k := by omega
      simp [this]

theorem retryLoop_all_network (α : Type) (k : Nat) (call : Nat → CallOutcome α)
    (h : ∀ r, call r = CallOutcome.requestError true) :
    retryLoop k true call = (none, k + 1) :=
  retryLoopGo_all_network α k call h (k + 1) 0 (by omega)

theorem downloadRetryGo_all_fail (α : Type) (k : Nat) (call : Nat → CallOutcome α)
    (h : ∀ r, call r = CallOutcome.requestError true) :
    ∀ fuel retry, retry + fuel = k + 1 →
      downloadRetryGo k call fuel retry = (none, k + 1) := by
  intro fuel
  induction fuel with
  | zero =>
    intro retry hr
    have : retry = k + 1 := by omega
    subst this
    rfl
  | succ f ih =>
    intro retry hr
    by_cases hlt : retry < k
    · have hstep : downloadRetryGo k call (f + 1) retry =
          downloadRetryGo k call f (retry + 1) := by
        simp [downloadRetryGo, h retry, hlt]
      rw [hstep]
      exact ih (retry + 1) (by omega)
    · have hres : downloadRetryGo k call (f + 1) retry = (none, retry + 1) := by
        simp [downloadRetryGo, h retry, hlt]
      rw [hres]
      have : retry = k := by omega
      simp [this]

theorem downloadRetry_all_fail (α : Type) (k : Nat) (call : Nat → CallOutcome α)
    (h : ∀ r, call r = CallOutcome.requestError true) :
    downloadRetry k call = (none, k + 1) :=
  downloadRetryGo_all_fail α k call h (k + 1) 0 (by omega)

/-- C2 counterexample: the claim predicts that with retryOnNetworkError =
false a network-class failure leads to exactly 1 attempt for the download
call as well.  But the download retry loop (generator.py lines 529-555)
never consults retry_on_network_error: with maxRetries = 1 and a
persistent network-class error it makes 2 attempts, not 1. -/
theorem download_network_flag_counterexample :
    (downloadRetry 1 (fun _ => (CallOutcome.requestError true : CallOutcome Nat))).2 = 2 ∧
    ¬(downloadRetry 1 (fun _ => (CallOutcome.requestError true : CallOutcome Nat))).2 = 1 := by
  decide

/-- C2 amended: with retryOnNetworkError = false, a network-class error
on the first attempt means exactly 1 attempt is made regardless of
maxRetries for the submit call and for each poll status-check call (both
are instances of retryLoop); the download call's loop does not consult
retryOnNetworkError and on persistent network-class errors makes
maxRetries + 1 attempts. -/
theorem retry_network_flag_amended (α : Type) (maxRetries : Nat)
    (call dcall : Nat → CallOutcome α) :
    (call 0 = CallOutcome.requestError true →
      retryLoop maxRetries false call = (none, 1)) ∧
    ((∀ r, dcall r = CallOutcome.requestError true) →
      downloadRetry maxRetries dcall = (none, maxRetries + 1)) :=
  ⟨retryLoop_network_no_retry α maxRetries call,
    downloadRetry_all_fail α maxRetries dcall⟩

/-- Witness for the amended C2 at concrete inputs: maxRetries = 3,
persistently network-failing calls. -/
theorem retry_network_flag_amended_witness :
    retryLoop 3 false (fun _ => (CallOutcome.requestError true : CallOutcome Nat)) =
      (none, 1) ∧
    downloadRetry 3 (fun _ => (CallOutcome.requestError true : CallOutcome Nat)) =
      (none, 4) :=
  ⟨(retry_network_flag_amended Nat 3 (fun _ => CallOutcome.requestError true)
      (fun _ => CallOutcome.requestError true)).1 rfl,
    (retry_network_flag_amended Nat 3 (fun _ => CallOutcome.requestError true)
      (fun _ => CallOutcome.requestError true)).2 (fun _ => rfl)⟩

/-- C4: with maxRetries = k, retryOnNetworkError = true and a call that
always fails with a network-class error, the underlying call is attempted
exactly k + 1 times and the sub-loop yields None; a driver attempt whose
submit behaves this way returns None (Python None, not an exception), and
the download loop behaves identically. -/
theorem retry_exhaustion_count (Img : Type) (k : Nat) (env : DriverCalls Img)
    (pollTimeout pollFuel : Nat)
    (hsubmit : ∀ r, env.submit r = CallOutcome.requestError true) :
    retryLoop k true env.submit = (none, k + 1) ∧
    generateImageSingle env k true pollTimeout pollFuel = some none ∧
    ((∀ r, env.download r = CallOutcome.requestError true) →
      downloadRetry k env.download = (none, k + 1)) := by
  have hsub := retryLoop_all_network String k env.submit hsubmit
  refine ⟨hsub, ?_, downloadRetry_all_fail Img k env.download⟩
  rw [generateImageSingle, hsub]

/-- Witness for C4 at concrete inputs: k = 2, an always-network-failing
submit oracle. -/
theorem retry_exhaustion_count_witness :
    retryLoop 2 true (DriverCalls.submit
      (⟨fun _ => CallOutcome.requestError true, fun _ _ => CallOutcome.otherError,
        fun _ => (CallOutcome.otherError : CallOutcome Nat), fun _ => 0⟩ : DriverCalls Nat)) =
      (none, 3) ∧
    generateImageSingle
      (⟨fun _ => CallOutcome.requestError true, fun _ _ => CallOutcome.otherError,
        fun _ => (CallOutcome.otherError : CallOutcome Nat), fun _ => 0⟩ : DriverCalls Nat)
      2 true 300 10 = some none := by
  have h := retry_exhaustion_count Nat 2
    (⟨fun _ => CallOutcome.requestError true, fun _ _ => CallOutcome.otherError,
      fun _ => (CallOutcome.otherError : CallOutcome Nat), fun _ => 0⟩ : DriverCalls Nat)
    300 10 (fun _ => rfl)
  exact ⟨h.1, h.2.1⟩

/-! ## Failover orchestrator (C1, C3, C9) -/

theorem availableIndices_ne_nil {n : Nat} {used : Finset Nat}
    (hsub : used ⊆ Finset.range n) (hcard : used.card < n) :
    availableIndices n used ≠ [] := by
  intro h
  rw [availableIndices_eq_nil_iff] at h
  have hsub2 : Finset.range n ⊆ used := by
    intro i hi
    exact h i (Finset.mem_range.mp hi)
  have := Finset.card_le_card hsub2
  rw [Finset.card_range] at this
  omega

theorem orchRun_all_fail (Img : Type) (N M : Nat)
    (driver : Nat → Nat → Nat → Option Img) (randA randM : Nat → Nat)
    (hdriver : ∀ t a m, driver t a m = none) :
    ∀ fuel attempt st,
      st.usedApi ⊆ Finset.range N → st.usedModel ⊆ Finset.range M →
      st.usedModel.card < M →
      M * st.usedApi.card + st.usedModel.card + fuel = N * M →
      (orchRun N M true driver randA randM fuel attempt st).result = none ∧
      (orchRun N M true driver randA randM fuel attempt st).calls = fuel := by
  intro fuel
  induction fuel with
  | zero =>
    intro attempt st _ _ _ _
    exact ⟨rfl, rfl⟩
  | succ f ih =>
    intro attempt st hA hM hMcard heq
    have hM1 : 1 ≤ M := by omega
    have hAcard : st.usedApi.card < N := by
      by_contra hge
      push_neg at hge
      have hmul : N * M ≤ M * st.usedApi.card := by
        calc N * M = M * N := Nat.mul_comm N M
        _ ≤ M * st.usedApi.card := Nat.mul_le_mul_left M hge
      omega
    have hAav := availableIndices_ne_nil hA hAcard
    have hMav := availableIndices_ne_nil hM hMcard
    rcases selectIdx_some_exists st.apiSel (randA attempt) hAav with
      ⟨a, apiSel', hselA, hamem⟩
    rcases selectIdx_some_exists st.modelSel (randM attempt) hMav with
      ⟨m, modelSel', hselM, hmmem⟩
    rcases mem_availableIndices.mp hamem with ⟨haN, haA⟩
    rcases mem_availableIndices.mp hmmem with ⟨hmM, hmMex⟩
    have hunfold : orchRun N M true driver randA randM (f + 1) attempt st =
        ⟨(orchRun N M true driver randA randM f (attempt + 1)
            ⟨(failoverUpdate M st.usedApi st.usedModel a m).1,
              (failoverUpdate M st.usedApi st.usedModel a m).2, apiSel', modelSel'⟩).result,
          (orchRun N M true driver randA randM f (attempt + 1)
            ⟨(failoverUpdate M st.usedApi st.usedModel a m).1,
              (failoverUpdate M st.usedApi st.usedModel a m).2, apiSel', modelSel'⟩).calls + 1,
          (st.usedApi, st.usedModel) ::
            (orchRun N M true driver randA randM f (attempt + 1)
              ⟨(failoverUpdate M st.usedApi st.usedModel a m).1,
                (failoverUpdate M st.usedApi st.usedModel a m).2, apiSel',
                modelSel'⟩).trace⟩ := by
      simp [orchRun, hselA, hselM, hdriver attempt a m]
    by_cases hcase : M ≤ (insert m st.usedModel).card
    · have hupd : failoverUpdate M st.usedApi st.usedModel a m =
          (insert a st.usedApi, (∅ : Finset Nat)) := by
        simp [failoverUpdate, hcase]
      have hMcard' : st.usedModel.card + 1 = M := by
        rw [Finset.card_insert_of_not_mem hmMex] at hcase
        omega
      have hinv : M * (insert a st.usedApi).card + (∅ : Finset Nat).card + f = N * M := by
        rw [Finset.card_insert_of_not_mem haA, Finset.card_empty, Nat.mul_succ]
        generalize M * st.usedApi.card = x at heq ⊢
        generalize N * M = y at heq ⊢
        omega
      have := ih (attempt + 1)
        ⟨insert a st.usedApi, ∅, apiSel', modelSel'⟩
        (Finset.insert_subset (Finset.mem_range.mpr haN) hA)
        (Finset.empty_subset _) (by simpa using hM1) hinv
      rw [hunfold, hupd]
      exact ⟨this.1, by rw [this.2]⟩
    · have hupd : failoverUpdate M st.usedApi st.usedModel a m =
          (st.usedApi, insert m st.usedModel) := by
        simp [failoverUpdate, hcase]
      have hcard' : (insert m st.usedModel).card < M := by
        rw [Finset.card_insert_of_not_mem hmMex]
        rw [Finset.card_insert_of_not_mem hmMex] at hcase
        omega
      have hinv : M * st.usedApi.card + (insert m st.usedModel).card + f = N * M := by
        rw [Finset.card_insert_of_not_mem hmMex]
        generalize M * st.usedApi.card = x at heq ⊢
        generalize N * M = y at heq ⊢
        omega
      have := ih (attempt + 1)
        ⟨st.usedApi, insert m st.usedModel, apiSel', modelSel'⟩
        hA (Finset.insert_subset (Finset.mem_range.mpr hmM) hM) hcard' hinv
      rw [hunfold, hupd]
      exact ⟨this.1, by rw [this.2]⟩

/-- C1: with failover enabled, N >= 1 credentials, M >= 1 models and
every driver attempt failing, generate_image invokes the driver exactly
N * M times — never more — and then returns None, for every choice of
the two selection strategies, every possible random draw and every
digit class. -/
theorem generate_image_attempt_bound (Img : Type) (isDig : Char → Bool)
    (size sz : String) (N M : Nat) (apiStrat modelStrat : SelectionStrategy)
    (driver : Nat → Nat → Nat → Option Img) (randA randM : Nat → Nat)
    (hsz : parseSize isDig size = some sz) (hN : 1 ≤ N) (hM : 1 ≤ M)
    (hdriver : ∀ t a m, driver t a m = none) :
    generate_image isDig size N M apiStrat modelStrat true driver randA randM =
      (Except.ok none, N * M) := by
  have h := orchRun_all_fail Img N M driver randA randM hdriver (N * M) 0
    ⟨∅, ∅, ⟨apiStrat, 0⟩, ⟨modelStrat, 0⟩⟩ (Finset.empty_subset _)
    (Finset.empty_subset _) (by simpa using hM) (by simp)
  simp [generate_image, hsz, h.1, h.2]

/-- Witness for C1 at concrete inputs: 2 credentials, 3 models,
round-robin and random strategies, an always-failing driver — exactly 6
driver invocations before returning None. -/
theorem generate_image_attempt_bound_witness :
    generate_image Char.isDigit "1:1" 2 3 SelectionStrategy.roundRobin
      SelectionStrategy.random true (fun _ _ _ => (none : Option Nat))
      (fun _ => 0) (fun _ => 1) = (Except.ok none, 6) :=
  generate_image_attempt_bound Nat Char.isDigit "1:1" "1328x1328" 2 3
    SelectionStrategy.roundRobin SelectionStrategy.random
    (fun _ _ _ => none) (fun _ => 0) (fun _ => 1) rfl (by omega) (by omega)
    (fun _ _ _ => rfl)

theorem failoverUpdate_exclusionStep (M : Nat) (A Mex : Finset Nat) (a m : Nat)
    (ha : a ∉ A) (hm : m ∉ Mex) :
    exclusionStep M (A, Mex) (failoverUpdate M A Mex a m) := by
  rw [failoverUpdate]
  by_cases hcase : M ≤ (insert m Mex).card
  · rw [if_pos hcase]
    rw [Finset.card_insert_of_not_mem hm] at hcase
    refine ⟨?_, ?_, ?_⟩
    · exact iff_of_true rfl ⟨a, ha, rfl⟩
    · exact iff_of_true rfl hcase
    · intro habs
      exact absurd rfl habs
  · rw [if_neg hcase]
    rw [Finset.card_insert_of_not_mem hm] at hcase
    refine ⟨?_, ?_, ?_⟩
    · refine iff_of_false (Finset.insert_ne_empty m Mex) ?_
      rintro ⟨a', ha', habs⟩
      refine ha' ?_
      have : a' ∈ insert a' A := Finset.mem_insert_self a' A
      rw [← habs] at this
      exact this
    · exact iff_of_false (Finset.insert_ne_empty m Mex) hcase
    · intro _
      exact ⟨rfl, m, hm, rfl⟩

theorem orchRun_trace_head (Img : Type) (N M : Nat) (ef : Bool)
    (driver : Nat → Nat → Nat → Option Img) (randA randM : Nat → Nat)
    (fuel attempt : Nat) (st : OrchSt) (hf : 0 < fuel) :
    ((orchRun N M ef driver randA randM fuel attempt st).trace).head? =
      some (st.usedApi, st.usedModel) := by
  obtain ⟨f, rfl⟩ : ∃ f, fuel = f + 1 := ⟨fuel - 1, by omega⟩
  cases ef with
  | false =>
    rcases hA : selectIdx st.apiSel N ∅ (randA attempt) with ⟨oa, apiSel'⟩
    rcases hMm : selectIdx st.modelSel M ∅ (randM attempt) with ⟨om, modelSel'⟩
    cases oa with
    | none => simp [orchRun, hA, hMm]
    | some a =>
      cases om with
      | none => simp [orchRun, hA, hMm]
      | some m =>
        cases hd : driver attempt a m with
        | some img => simp [orchRun, hA, hMm, hd]
        | none => simp [orchRun, hA, hMm, hd]
  | true =>
    rcases hA : selectIdx st.apiSel N st.usedApi (randA attempt) with ⟨oa, apiSel'⟩
    rcases hMm : selectIdx st.modelSel M st.usedModel (randM attempt) with ⟨om, modelSel'⟩
    cases oa with
    | none => simp [orchRun, hA, hMm]
    | some a =>
      cases om with
      | none => simp [orchRun, hA, hMm]
      | some m =>
        cases hd : driver attempt a m with
        | some img => simp [orchRun, hA, hMm, hd]
        | none => simp [orchRun, hA, hMm, hd]

theorem orchRun_chain (Img : Type) (N M : Nat)
    (driver : Nat → Nat → Nat → Option Img) (randA randM : Nat → Nat) :
    ∀ fuel attempt st,
      List.Chain' (exclusionStep M)
        (orchRun N M true driver randA randM fuel attempt st).trace := by
  intro fuel
  induction fuel with
  | zero =>
    intro attempt st
    simp [orchRun]
  | succ f ih =>
    intro attempt st
    rcases hA : selectIdx st.apiSel N st.usedApi (randA attempt) with ⟨oa, apiSel'⟩
    rcases hMm : selectIdx st.modelSel M st.usedModel (randM attempt) with ⟨om, modelSel'⟩
    cases oa with
    | none => simp [orchRun, hA, hMm]
    | some a =>
      cases om with
      | none => simp [orchRun, hA, hMm]
      | some m =>
        cases hd : driver attempt a m with
        | some img => simp [orchRun, hA, hMm, hd]
        | none =>
          have hstep := failoverUpdate_exclusionStep M st.usedApi st.usedModel a m
            (selectIdx_some_spec hA).2 (selectIdx_some_spec hMm).2
          simp [orchRun, hA, hMm, hd]
          rw [List.chain'_cons']
          refine ⟨?_, ?_⟩
          · intro y hy
            cases f with
            | zero => simp [orchRun] at hy
            | succ f' =>
              rw [orchRun_trace_head Img N M true driver randA randM (f' + 1)
                (attempt + 1) _ (by omega)] at hy
              simp at hy
              rw [← hy]
              simpa using hstep
          · exact ih (attempt + 1) _

/-- C3: during a generate_image run with failover enabled, between any
two consecutive entered loop iterations the exclusion sets satisfy
exclusionStep: the model exclusion set is cleared exactly when a
credential index is added to the credential exclusion set, which happens
exactly when the model set's size reached the model count M after the
failure, and at any other time the credential set is unchanged while the
model set grows by one failed index.  Each trace entry is the pair of
exclusion sets in effect for that attempt's selections, so a cleared
entry means the very next attempt sees the full model set available. -/
theorem model_exclusion_reset (Img : Type) (N M : Nat)
    (apiStrat modelStrat : SelectionStrategy)
    (driver : Nat → Nat → Nat → Option Img) (randA randM : Nat → Nat) :
    List.Chain' (exclusionStep M)
      (orchRun N M true driver randA randM (N * M) 0
        ⟨∅, ∅, ⟨apiStrat, 0⟩, ⟨modelStrat, 0⟩⟩).trace :=
  orchRun_chain Img N M driver randA randM (N * M) 0 _

theorem orchRun_result_none (Img : Type) (N M : Nat) (ef : Bool)
    (driver : Nat → Nat → Nat → Option Img) (randA randM : Nat → Nat)
    (hdriver : ∀ t a m, driver t a m = none) :
    ∀ fuel attempt st,
      (orchRun N M ef driver randA randM fuel attempt st).result = none := by
  intro fuel
  induction fuel with
  | zero =>
    intro attempt st
    rfl
  | succ f ih =>
    intro attempt st
    cases ef with
    | false =>
      rcases hA : selectIdx st.apiSel N ∅ (randA attempt) with ⟨oa, apiSel'⟩
      rcases hMm : selectIdx st.modelSel M ∅ (randM attempt) with ⟨om, modelSel'⟩
      cases oa with
      | none => simp [orchRun, hA, hMm]
      | some a =>
        cases om with
        | none => simp [orchRun, hA, hMm]
        | some m => simp [orchRun, hA, hMm, hdriver]
    | true =>
      rcases hA : selectIdx st.apiSel N st.usedApi (randA attempt) with ⟨oa, apiSel'⟩
      rcases hMm : selectIdx st.modelSel M st.usedModel (randM attempt) with ⟨om, modelSel'⟩
      cases oa with
      | none => simp [orchRun, hA, hMm]
      | some a =>
        cases om with
        | none => simp [orchRun, hA, hMm]
        | some m => simp [orchRun, hA, hMm, hdriver, ih]

/-- C9: relative to the interpreter's \\d class isDig, generate_image
raises ValidationError exactly for a size string that is neither a
SIZE_PRESETS key nor an ^\\d+x\\d+$ match, and it does so with zero
driver invocations — before any network call.  Each of the claim's
enumerated absorbed failure kinds makes the driver attempt return
Python None rather than raise: submit retry exhaustion, poll timeout,
status-check retry exhaustion, service-reported FAILED/CANCELED/TIMEOUT,
download retry exhaustion; an uploader exception is caught into a failed
upload; and a run whose driver attempts all fail returns None instead of
raising. -/
theorem generate_image_error_policy (isDig : Char → Bool) (size : String)
    (Img : Type) (N M : Nat) (apiStrat modelStrat : SelectionStrategy) (ef : Bool)
    (driver : Nat → Nat → Nat → Option Img) (randA randM : Nat → Nat) :
    (parseSize isDig size = none →
      generate_image isDig size N M apiStrat modelStrat ef driver randA randM =
        (Except.error (ValidationError.unsupportedSize size), 0)) ∧
    (parseSize isDig size ≠ none → (∀ t a m, driver t a m = none) →
      (generate_image isDig size N M apiStrat modelStrat ef driver randA randM).1 =
        Except.ok none) ∧
    (∀ (env : DriverCalls Img) (mr : Nat) (rone : Bool) (pT pF : Nat),
      (retryLoop mr rone env.submit).1 = none →
      generateImageSingle env mr rone pT pF = some none) ∧
    (∀ (env : DriverCalls Img) (mr : Nat) (rone : Bool) (pT pF : Nat)
      (tid : String),
      (retryLoop mr rone env.submit).1 = some tid →
      pT < env.elapsed 0 →
      generateImageSingle env mr rone pT (pF + 1) = some none) ∧
    (∀ (env : DriverCalls Img) (mr : Nat) (rone : Bool) (pT pF : Nat)
      (tid : String),
      (retryLoop mr rone env.submit).1 = some tid →
      ¬pT < env.elapsed 0 →
      (retryLoop mr rone (env.status 0)).1 = none →
      generateImageSingle env mr rone pT (pF + 1) = some none) ∧
    (∀ (env : DriverCalls Img) (mr : Nat) (rone : Bool) (pT pF : Nat)
      (tid : String) (data : PollData),
      (retryLoop mr rone env.submit).1 = some tid →
      ¬pT < env.elapsed 0 →
      (retryLoop mr rone (env.status 0)).1 = some data →
      (data.task_status = "FAILED" ∨ data.task_status = "CANCELED" ∨
        data.task_status = "TIMEOUT") →
      generateImageSingle env mr rone pT (pF + 1) = some none) ∧
    (∀ (env : DriverCalls Img) (mr : Nat) (rone : Bool) (pT pF : Nat)
      (tid : String) (data : PollData),
      (retryLoop mr rone env.submit).1 = some tid →
      ¬pT < env.elapsed 0 →
      (retryLoop mr rone (env.status 0)).1 = some data →
      data.task_status = "SUCCEED" →
      data.output_images ≠ [] →
      (downloadRetry mr env.download).1 = none →
      generateImageSingle env mr rone pT (pF + 1) = some none) ∧
    callUploadCallback UploadOutcome.raisesExc = none := by
  refine ⟨?_, ?_, ?_, ?_, ?_, ?_, ?_, rfl⟩
  · intro h
    simp [generate_image, h]
  · intro h hdriver
    rcases hp : parseSize isDig size with _ | sz
    · exact absurd hp h
    · simp [generate_image, hp,
        orchRun_result_none Img N M ef driver randA randM hdriver]
  · intro env mr rone pT pF hsub
    simp [generateImageSingle, hsub]
  · intro env mr rone pT pF tid hsub hT
    simp [generateImageSingle, hsub, pollLoopGo, hT]
  · intro env mr rone pT pF tid hsub hT hstat
    simp [generateImageSingle, hsub, pollLoopGo, hT, hstat]
  · intro env mr rone pT pF tid data hsub hT hstat hterm
    rcases hterm with hs | hs | hs <;>
      simp [generateImageSingle, hsub, pollLoopGo, hT, hstat, hs]
  · intro env mr rone pT pF tid data hsub hT hstat hs hne hdl
    obtain ⟨u, us, himg⟩ := List.exists_cons_of_ne_nil hne
    simp [generateImageSingle, hsub, pollLoopGo, hT, hstat, hs, himg, hdl]

/-- Witness for C9 at concrete inputs, with the digit class instantiated
to the ASCII digits (a sub-class of every interpreter's \\d): the
malformed size "abc" raises with zero driver calls; the accepted size
"12x34" with an all-failing driver returns Python None; a driver attempt
whose poll reports FAILED returns Python None. -/
theorem generate_image_error_policy_witness :
    generate_image Char.isDigit "abc" 1 1 SelectionStrategy.sequential
      SelectionStrategy.sequential true (fun _ _ _ => (none : Option Nat))
      (fun _ => 0) (fun _ => 0) =
      (Except.error (ValidationError.unsupportedSize "abc"), 0) ∧
    (generate_image Char.isDigit "12x34" 1 1 SelectionStrategy.sequential
      SelectionStrategy.sequential true (fun _ _ _ => (none : Option Nat))
      (fun _ => 0) (fun _ => 0)).1 = Except.ok none ∧
    generateImageSingle
      (⟨fun _ => CallOutcome.success "tid",
        fun _ _ => CallOutcome.success ⟨"FAILED", []⟩,
        fun _ => (CallOutcome.otherError : CallOutcome Nat),
        fun _ => 0⟩ : DriverCalls Nat) 3 true 300 (4 + 1) = some none := by
  refine ⟨?_, ?_, ?_⟩
  · exact (generate_image_error_policy Char.isDigit "abc" Nat 1 1
      SelectionStrategy.sequential SelectionStrategy.sequential true
      (fun _ _ _ => none) (fun _ => 0) (fun _ => 0)).1 rfl
  · exact (generate_image_error_policy Char.isDigit "12x34" Nat 1 1
      SelectionStrategy.sequential SelectionStrategy.sequential true
      (fun _ _ _ => none) (fun _ => 0) (fun _ => 0)).2.1 (by decide)
      (fun _ _ _ => rfl)
  · exact (generate_image_error_policy Char.isDigit "12x34" Nat 1 1
      SelectionStrategy.sequential SelectionStrategy.sequential true
      (fun _ _ _ => (none : Option Nat)) (fun _ => 0) (fun _ => 0)).2.2.2.2.2.1
      (⟨fun _ => CallOutcome.success "tid",
        fun _ _ => CallOutcome.success ⟨"FAILED", []⟩,
        fun _ => (CallOutcome.otherError : CallOutcome Nat),
        fun _ => 0⟩ : DriverCalls Nat) 3 true 300 4 "tid" ⟨"FAILED", []⟩
      rfl (by decide) rfl (Or.inl rfl)
